import Mathlib

/-!
Verification of `modin/core/storage_formats/pandas/utils.py`: a shallow
embedding of its partition-sizing and splitting utilities, together with
theorems settling the specified properties.

Modelling conventions:
* A pandas `Series` is a list of index labels plus a list of values.
* A pandas `DataFrame` is a list of index labels, a list of column labels and
  row-major data.  Well-formedness (as many data rows as index labels, each
  row as wide as the column list) is the predicate `DataFrame.wf`.
* Python slicing `xs[a:b]` with nonnegative bounds is `pySlice`.
* `np.cumsum` on a list of naturals is `cumsum`.
* The process-wide configuration value `MinPartitionSize.get()` is passed to
  each embedded function as an explicit final argument `minPartitionSize`
  (the module only reads it).
* Fallible behaviour (Python exceptions such as the `AttributeError` raised
  when `len(df.columns)` is evaluated on a `Series`, or the `AssertionError`
  of the dimension probes) is returned as `Except String`.
* `split_result_of_axis_func_pandas` mutates its `length_list` argument in
  place (`length_list.insert(0, 0)`); the embedding therefore returns, next
  to the list of partitions, the final state of the list object of the caller.
-/

set_option maxHeartbeats 1000000

namespace Modin

/-- Python list slicing `xs[a:b]` for nonnegative bounds `a`, `b`. -/
def pySlice (a b : Nat) (xs : List α) : List α := (xs.drop a).take (b - a)

/-- Running cumulative sums of a list of naturals, as `np.cumsum`. -/
def cumsum (l : List Nat) : List Nat := (l.scanl (fun x y => x + y) 0).tail

/-- Embedding of a `pandas.Series`: index labels and values. -/
structure Series (α : Type) where
  index : List Nat
  data : List α
  deriving DecidableEq

/-- Embedding of a `pandas.DataFrame`: index labels, column labels and
row-major data. -/
structure DataFrame (α : Type) where
  index : List Nat
  cols : List Nat
  data : List (List α)
  deriving DecidableEq

/-- Well-formedness of a `DataFrame`: one data row per index label, and every
row as wide as the column-label list. -/
def DataFrame.wf (d : DataFrame α) : Prop :=
  d.data.length = d.index.length ∧ ∀ r ∈ d.data, r.length = d.cols.length

instance (d : DataFrame α) [DecidableEq α] : Decidable d.wf := by
  unfold DataFrame.wf; infer_instance

/-- A pandas object handled by the splitter: either a `DataFrame` or a
`Series` (the `isinstance(result, pandas.Series)` branch). -/
inductive PdObj (α : Type) where
  | df : DataFrame α → PdObj α
  | series : Series α → PdObj α
  deriving DecidableEq

instance {ε β : Type} [DecidableEq ε] [DecidableEq β] : DecidableEq (Except ε β) :=
  fun a b =>
    match a, b with
    | Except.error e1, Except.error e2 =>
        if h : e1 = e2 then Decidable.isTrue (by rw [h])
        else Decidable.isFalse (by intro hc; exact h (Except.error.inj hc))
    | Except.ok v1, Except.ok v2 =>
        if h : v1 = v2 then Decidable.isTrue (by rw [h])
        else Decidable.isFalse (by intro hc; exact h (Except.ok.inj hc))
    | Except.error _, Except.ok _ => Decidable.isFalse (by intro hc; exact Except.noConfusion hc)
    | Except.ok _, Except.error _ => Decidable.isFalse (by intro hc; exact Except.noConfusion hc)

/-- Embedding of `s.iloc[a:b]` on a `Series`: positional row slicing of values and index. -/
def Series.ilocRows (a b : Nat) (s : Series α) : Series α :=
  ⟨pySlice a b s.index, pySlice a b s.data⟩

/-- Embedding of `d.iloc[a:b]` on a `DataFrame`: positional row slicing. -/
def DataFrame.ilocRows (a b : Nat) (d : DataFrame α) : DataFrame α :=
  ⟨pySlice a b d.index, d.cols, pySlice a b d.data⟩

/-- Embedding of `d.iloc[:, a:b]` on a `DataFrame`: positional column slicing. -/
def DataFrame.ilocCols (a b : Nat) (d : DataFrame α) : DataFrame α :=
  ⟨d.index, pySlice a b d.cols, d.data.map (pySlice a b)⟩

/-- Embedding of `len(df.index)`: defined for both `DataFrame` and `Series`. -/
def pdIndexLen : PdObj α → Nat
  | PdObj.df d => d.index.length
  | PdObj.series s => s.index.length

/-- Embedding of `len(df.columns)`: defined for a `DataFrame`; a `Series` has no
`columns` attribute, so the access fails. -/
def pdColsLen : PdObj α → Option Nat
  | PdObj.df d => some d.cols.length
  | PdObj.series _ => none

/-- Embedding of `get_default_chunksize(length, num_splits)`:
`length // num_splits if length % num_splits == 0 else length // num_splits + 1`.
Precondition (documented in the source): `num_splits > 0`. -/
def get_default_chunksize (length num_splits : Nat) : Nat :=
  if length % num_splits = 0 then length / num_splits else length / num_splits + 1

/-- Embedding of `compute_chunksize(df, num_splits, default_block_size=None, axis=None)`.
`minPartitionSize` is the value read from the `MinPartitionSize`
configuration when no `default_block_size` override is supplied.  Returns a
single chunksize for `axis` 0 or 1, a pair for `axis=None`; evaluating
`len(df.columns)` on a `Series` raises, and an axis outside `{0, 1, None}`
reaches the final `return` with `row_chunksize` unbound. -/
def compute_chunksize (df : PdObj α) (num_splits : Nat)
    (default_block_size : Option Nat) (axis : Option Nat)
    (minPartitionSize : Nat) : Except String (Nat ⊕ (Nat × Nat)) :=
  let dbs := match default_block_size with
    | none => minPartitionSize
    | some v => v
  match axis with
  | some 0 =>
      Except.ok (Sum.inl (max 1 (max (get_default_chunksize (pdIndexLen df) num_splits) dbs)))
  | some 1 =>
      match pdColsLen df with
      | none => Except.error "AttributeError"
      | some c =>
          Except.ok (Sum.inl (max 1 (max (get_default_chunksize c num_splits) dbs)))
  | none =>
      match pdColsLen df with
      | none => Except.error "AttributeError"
      | some c =>
          Except.ok (Sum.inr
            (max 1 (max (get_default_chunksize (pdIndexLen df) num_splits) dbs),
             max 1 (max (get_default_chunksize c num_splits) dbs)))
  | some _ =>
      match pdColsLen df with
      | none => Except.error "AttributeError"
      | some _ => Except.error "NameError"

/-- Embedding of `split_result_of_axis_func_pandas(axis, num_splits, result, length_list)`.
The first component is the returned list of partitions (or the raised
exception); the second component is the final state of the `length_list` object of the caller, which the function mutates in place via
`length_list.insert(0, 0)` when it is supplied. -/
def split_result_of_axis_func_pandas (axis num_splits : Nat) (result : PdObj α)
    (length_list : Option (List Nat)) (minPartitionSize : Nat) :
    Except String (List (PdObj α)) × Option (List Nat) :=
  match length_list with
  | some ll =>
      let ll2 := 0 :: ll
      let sums := cumsum ll2
      let parts :=
        match result with
        | PdObj.series s =>
            (List.range (sums.length - 1)).map (fun i =>
              PdObj.series (Series.ilocRows (sums.getD i 0) (sums.getD (i + 1) 0) s))
        | PdObj.df d =>
            if axis = 0 then
              (List.range (sums.length - 1)).map (fun i =>
                PdObj.df (DataFrame.ilocRows (sums.getD i 0) (sums.getD (i + 1) 0) d))
            else
              (List.range (sums.length - 1)).map (fun i =>
                PdObj.df (DataFrame.ilocCols (sums.getD i 0) (sums.getD (i + 1) 0) d))
      (Except.ok parts, some ll2)
  | none =>
      if num_splits = 1 then (Except.ok [result], none)
      else
        match compute_chunksize result num_splits none (some axis) minPartitionSize with
        | Except.error e => (Except.error e, none)
        | Except.ok (Sum.inr _) => (Except.error "TypeError", none)
        | Except.ok (Sum.inl chunksize) =>
            let parts :=
              match result with
              | PdObj.series s =>
                  (List.range num_splits).map (fun i =>
                    PdObj.series (Series.ilocRows (chunksize * i) (chunksize * (i + 1)) s))
              | PdObj.df d =>
                  if axis = 0 then
                    (List.range num_splits).map (fun i =>
                      PdObj.df (DataFrame.ilocRows (chunksize * i) (chunksize * (i + 1)) d))
                  else
                    (List.range num_splits).map (fun i =>
                      PdObj.df (DataFrame.ilocCols (chunksize * i) (chunksize * (i + 1)) d))
            (Except.ok parts, none)

/-- Embedding of `length_fn_pandas(df)`: asserts the argument is a `DataFrame`, then
returns `len(df) if len(df) > 0 else 0`. -/
def length_fn_pandas : PdObj α → Except String Nat
  | PdObj.df d => Except.ok (if 0 < d.index.length then d.index.length else 0)
  | PdObj.series _ => Except.error "AssertionError"

/-- Embedding of `width_fn_pandas(df)`: asserts the argument is a `DataFrame`, then
returns `len(df.columns) if len(df.columns) > 0 else 0`. -/
def width_fn_pandas : PdObj α → Except String Nat
  | PdObj.df d => Except.ok (if 0 < d.cols.length then d.cols.length else 0)
  | PdObj.series _ => Except.error "AssertionError"

/-- Embedding of `pandas.concat(parts, axis=1)` for frames sharing one index: keep the
index of the first frame, append column labels and append each row. -/
def hconcat2 (d1 d2 : DataFrame α) : DataFrame α :=
  ⟨d1.index, d1.cols ++ d2.cols, List.zipWith (· ++ ·) d1.data d2.data⟩

/-- Embedding of `pandas.concat(parts)` along the row axis for frames sharing one column
list: indexes and data rows are concatenated in order. -/
def concatRows : List (DataFrame α) → DataFrame α
  | [] => ⟨[], [], []⟩
  | [d] => d
  | d :: rest =>
      ⟨d.index ++ (concatRows rest).index, d.cols, d.data ++ (concatRows rest).data⟩

/-- Embedding of `pandas.concat(parts, axis=1)` along the column axis, folding
`hconcat2` over a sequence of frames. -/
def concatCols : List (DataFrame α) → DataFrame α
  | [] => ⟨[], [], []⟩
  | [d] => d
  | d :: rest => hconcat2 d (concatCols rest)

/-- The `[0, 0)` slice of `T` along the axis the length-list path of the splitter
actually slices (rows for a `Series` or for `axis = 0`, columns otherwise):
the extra leading partition produced after the in-place mutation of a reused
length list. -/
def leadingEmptySlice (axis : Nat) : PdObj α → PdObj α
  | PdObj.series s => PdObj.series (Series.ilocRows 0 0 s)
  | PdObj.df d =>
      if axis = 0 then PdObj.df (DataFrame.ilocRows 0 0 d)
      else PdObj.df (DataFrame.ilocCols 0 0 d)

/-- Number of elements of a partition along the axis the splitter actually
sliced (rows for a `Series` or for `axis = 0`, columns otherwise). -/
def slicedAxisLen (axis : Nat) : PdObj α → Nat
  | PdObj.series s => s.data.length
  | PdObj.df d => if axis = 0 then d.data.length else d.cols.length

/-! ### Arithmetic facts about the ceiling-division chunksize -/

theorem ceil_div_aux (N q r : Nat) (hN : 1 ≤ N) (hr : r < N) :
    (if r = 0 then q else q + 1) = (N * q + r + N - 1) / N := by
  by_cases h : r = 0
  · subst h
    rw [if_pos rfl]
    have h1 : N * q + 0 + N - 1 = N * q + (N - 1) := by omega
    rw [h1, Nat.mul_add_div (by omega), Nat.div_eq_of_lt (by omega)]
    omega
  · rw [if_neg h]
    have h1 : N * q + r + N - 1 = N * (q + 1) + (r - 1) := by
      rw [Nat.mul_add, Nat.mul_one]; omega
    rw [h1, Nat.mul_add_div (by omega), Nat.div_eq_of_lt (by omega)]

theorem get_default_chunksize_eq (L N : Nat) (hN : 1 ≤ N) :
    get_default_chunksize L N = (L + N - 1) / N := by
  have hmod : L % N < N := Nat.mod_lt _ (by omega)
  have hdm : N * (L / N) + L % N = L := Nat.div_add_mod L N
  have haux := ceil_div_aux N (L / N) (L % N) hN hmod
  rw [hdm] at haux
  unfold get_default_chunksize
  exact haux

theorem le_gdc_mul (L N : Nat) (hN : 1 ≤ N) :
    L ≤ get_default_chunksize L N * N := by
  have hmod : L % N < N := Nat.mod_lt _ (by omega)
  have hdm : N * (L / N) + L % N = L := Nat.div_add_mod L N
  unfold get_default_chunksize
  by_cases h : L % N = 0
  · rw [if_pos h, Nat.mul_comm]
    omega
  · rw [if_neg h, Nat.add_mul, Nat.one_mul, Nat.mul_comm]
    omega

theorem gdc_le_of_cover (L N C : Nat) (hN : 1 ≤ N) (h : L ≤ C * N) :
    get_default_chunksize L N ≤ C := by
  have hmod : L % N < N := Nat.mod_lt _ (by omega)
  have hdm : N * (L / N) + L % N = L := Nat.div_add_mod L N
  unfold get_default_chunksize
  by_cases h0 : L % N = 0
  · rw [if_pos h0]
    refine Nat.le_of_mul_le_mul_left ?_ (show 0 < N by omega)
    have hc : C * N = N * C := Nat.mul_comm C N
    omega
  · rw [if_neg h0]
    by_contra hcon
    have hq : C ≤ L / N := by omega
    have hmul : N * C ≤ N * (L / N) := Nat.mul_le_mul_left N hq
    have hc : C * N = N * C := Nat.mul_comm C N
    omega

/-! ### List facts about slices, scans and cumulative sums -/

theorem pySlice_add (l a b : Nat) (xs : List α) :
    pySlice (l + a) (l + b) xs = pySlice a b (xs.drop l) := by
  unfold pySlice
  rw [List.drop_drop]
  congr 1
  omega

/-- Consecutive half-open slices at the running sums of `ls` concatenate back
to the whole list as soon as the slice lengths cover it. -/
theorem psum_slices_flatten (ls : List Nat) (xs : List α) (h : xs.length ≤ ls.sum) :
    ((List.range ls.length).map (fun i =>
      pySlice ((ls.take i).sum) ((ls.take (i + 1)).sum) xs)).flatten = xs := by
  induction ls generalizing xs with
  | nil =>
      have hx : xs = [] := List.length_eq_zero.mp (Nat.le_zero.mp (by simpa using h))
      subst hx
      simp
  | cons l ls ih =>
      have hxlen : (xs.drop l).length ≤ ls.sum := by
        simp only [List.length_drop]
        simp only [List.sum_cons] at h
        omega
      rw [List.length_cons, List.range_succ_eq_map, List.map_cons, List.map_map]
      have hhead : pySlice (((l :: ls).take 0).sum) (((l :: ls).take (0 + 1)).sum) xs
          = xs.take l := by
        simp [pySlice]
      have htail : (List.range ls.length).map
          ((fun i => pySlice (((l :: ls).take i).sum) (((l :: ls).take (i + 1)).sum) xs) ∘ Nat.succ) =
          (List.range ls.length).map (fun i =>
            pySlice ((ls.take i).sum) ((ls.take (i + 1)).sum) (xs.drop l)) := by
        apply List.map_congr_left
        intro i _
        show pySlice (((l :: ls).take (i + 1)).sum) (((l :: ls).take (i + 1 + 1)).sum) xs = _
        rw [List.take_succ_cons, List.take_succ_cons, List.sum_cons, List.sum_cons, pySlice_add]
      rw [htail]
      show (pySlice (((l :: ls).take 0).sum) (((l :: ls).take (0 + 1)).sum) xs ::
        (List.range ls.length).map (fun i =>
          pySlice ((ls.take i).sum) ((ls.take (i + 1)).sum) (xs.drop l))).flatten = xs
      rw [hhead, List.flatten_cons, ih (xs.drop l) hxlen, List.take_append_drop]

theorem scanl_add_getD (ls : List Nat) (a i : Nat) (h : i ≤ ls.length) :
    (ls.scanl (fun x y => x + y) a).getD i 0 = a + (ls.take i).sum := by
  induction ls generalizing a i with
  | nil =>
      have hi : i = 0 := Nat.le_zero.mp (by simpa using h)
      subst hi
      simp [List.scanl]
  | cons l ls ih =>
      rw [List.scanl_cons, List.singleton_append]
      cases i with
      | zero => simp
      | succ j =>
          rw [List.getD_cons_succ, ih (a + l) j (by simpa using h),
            List.take_succ_cons, List.sum_cons]
          omega

theorem cumsum_zero_cons (ll : List Nat) :
    cumsum (0 :: ll) = ll.scanl (fun x y => x + y) 0 := by
  simp [cumsum, List.scanl_cons]

theorem cumsum_zero_cons_length (ll : List Nat) :
    (cumsum (0 :: ll)).length = ll.length + 1 := by
  rw [cumsum_zero_cons, List.length_scanl]

theorem cumsum_zero_cons_getD (ll : List Nat) (i : Nat) (h : i ≤ ll.length) :
    (cumsum (0 :: ll)).getD i 0 = (ll.take i).sum := by
  rw [cumsum_zero_cons, scanl_add_getD ll 0 i h, Nat.zero_add]

theorem replicate_take_sum (c N i : Nat) (h : i ≤ N) :
    ((List.replicate N c).take i).sum = c * i := by
  rw [List.take_replicate, List.sum_replicate, min_eq_left h, smul_eq_mul, Nat.mul_comm]

/-- Writing uniform chunk bounds `[c·i, c·(i+1))` as running sums of
`List.replicate N c`. -/
theorem uniform_as_psums {β : Type} (g : Nat → Nat → β) (c N : Nat) :
    (List.range N).map (fun i => g (c * i) (c * (i + 1))) =
    (List.range (List.replicate N c).length).map (fun i =>
      g (((List.replicate N c).take i).sum) (((List.replicate N c).take (i + 1)).sum)) := by
  rw [List.length_replicate]
  apply List.map_congr_left
  intro i hi
  have hi' : i < N := List.mem_range.mp hi
  rw [replicate_take_sum c N i (Nat.le_of_lt hi'), replicate_take_sum c N (i + 1) hi']

/-- Running-sum slice bounds over `0 :: ll` are the bounds over `ll` with an
extra leading `[0, 0)` slice. -/
theorem zero_cons_psums_map {β : Type} (g : Nat → Nat → β) (ll : List Nat) :
    (List.range (0 :: ll).length).map (fun i =>
      g (((0 :: ll).take i).sum) (((0 :: ll).take (i + 1)).sum)) =
    g 0 0 :: (List.range ll.length).map (fun i =>
      g ((ll.take i).sum) ((ll.take (i + 1)).sum)) := by
  rw [List.length_cons, List.range_succ_eq_map, List.map_cons, List.map_map]
  congr 1
  apply List.map_congr_left
  intro i _
  show g (((0 :: ll).take (i + 1)).sum) (((0 :: ll).take (i + 1 + 1)).sum) = _
  rw [List.take_succ_cons, List.take_succ_cons, List.sum_cons, List.sum_cons,
    Nat.zero_add, Nat.zero_add]

/-! ### Concatenation lemmas -/

theorem concatRows_cons (p : DataFrame α) (ps : List (DataFrame α)) :
    concatRows (p :: ps) =
      ⟨p.index ++ (ps.map (fun q => q.index)).flatten, p.cols,
       p.data ++ (ps.map (fun q => q.data)).flatten⟩ := by
  induction ps generalizing p with
  | nil => simp [concatRows]
  | cons q qs ih =>
      have step : concatRows (p :: q :: qs) =
          ⟨p.index ++ (concatRows (q :: qs)).index, p.cols,
           p.data ++ (concatRows (q :: qs)).data⟩ := rfl
      rw [step, ih q]
      simp [List.append_assoc]

theorem concatRows_eq_flatten (parts : List (DataFrame α)) (h : parts ≠ []) :
    concatRows parts =
      ⟨(parts.map (fun q => q.index)).flatten, (parts.head h).cols,
       (parts.map (fun q => q.data)).flatten⟩ := by
  match parts with
  | p :: ps => rw [concatRows_cons]; simp

/-- Concatenating, along the row axis, the row slices of `T` taken at the
running sums of a nonempty covering length list reproduces `T`. -/
theorem concatRows_slices (T : DataFrame α) (hlen : T.data.length = T.index.length)
    (ls : List Nat) (hne : ls ≠ []) (hcov : T.index.length ≤ ls.sum) :
    concatRows ((List.range ls.length).map (fun i =>
      DataFrame.ilocRows ((ls.take i).sum) ((ls.take (i + 1)).sum) T)) = T := by
  obtain ⟨ti, tc, td⟩ := T
  simp only at hlen hcov
  have hne2 : (List.range ls.length).map (fun i =>
      DataFrame.ilocRows ((ls.take i).sum) ((ls.take (i + 1)).sum)
        (⟨ti, tc, td⟩ : DataFrame α)) ≠ [] := by
    simp only [ne_eq, List.map_eq_nil_iff, List.range_eq_nil]
    intro hc
    exact hne (List.length_eq_zero.mp hc)
  rw [concatRows_eq_flatten _ hne2]
  have hhd := List.head_mem hne2
  obtain ⟨i0, _, hFi⟩ := List.mem_map.mp hhd
  refine DataFrame.mk.injEq .. ▸ ?_
  refine ⟨?_, ?_, ?_⟩
  · rw [List.map_map]
    exact psum_slices_flatten ls ti hcov
  · rw [← hFi]
    rfl
  · rw [List.map_map]
    exact psum_slices_flatten ls td (by omega)

theorem concatCols_map_slices (ti tc : List Nat) (td : List (List α))
    (q : Nat × Nat) (bs : List (Nat × Nat)) :
    concatCols ((q :: bs).map (fun p =>
      DataFrame.ilocCols p.1 p.2 (⟨ti, tc, td⟩ : DataFrame α))) =
      ⟨ti, ((q :: bs).map (fun p => pySlice p.1 p.2 tc)).flatten,
       td.map (fun r => ((q :: bs).map (fun p => pySlice p.1 p.2 r)).flatten)⟩ := by
  induction bs generalizing q with
  | nil => simp [concatCols, DataFrame.ilocCols]
  | cons q2 bs2 ih =>
      have step : concatCols ((q :: q2 :: bs2).map (fun p =>
          DataFrame.ilocCols p.1 p.2 (⟨ti, tc, td⟩ : DataFrame α))) =
          hconcat2 (DataFrame.ilocCols q.1 q.2 ⟨ti, tc, td⟩)
            (concatCols ((q2 :: bs2).map (fun p =>
              DataFrame.ilocCols p.1 p.2 (⟨ti, tc, td⟩ : DataFrame α)))) := rfl
      rw [step, ih q2]
      unfold hconcat2 DataFrame.ilocCols
      simp only [List.map_cons, List.flatten_cons, List.zipWith_map, List.zipWith_same]

theorem concatCols_map_slices_ne_nil (ti tc : List Nat) (td : List (List α))
    (bs : List (Nat × Nat)) (h : bs ≠ []) :
    concatCols (bs.map (fun p =>
      DataFrame.ilocCols p.1 p.2 (⟨ti, tc, td⟩ : DataFrame α))) =
      ⟨ti, (bs.map (fun p => pySlice p.1 p.2 tc)).flatten,
       td.map (fun r => (bs.map (fun p => pySlice p.1 p.2 r)).flatten)⟩ := by
  match bs with
  | q :: bs' => exact concatCols_map_slices ti tc td q bs'

/-- Concatenating, along the column axis, the column slices of `T` taken at
the running sums of a nonempty covering length list reproduces `T`. -/
theorem concatCols_slices (T : DataFrame α)
    (hrect : ∀ r ∈ T.data, r.length = T.cols.length)
    (ls : List Nat) (hne : ls ≠ []) (hcov : T.cols.length ≤ ls.sum) :
    concatCols ((List.range ls.length).map (fun i =>
      DataFrame.ilocCols ((ls.take i).sum) ((ls.take (i + 1)).sum) T)) = T := by
  obtain ⟨ti, tc, td⟩ := T
  simp only at hrect hcov
  have hpair : (List.range ls.length).map (fun i =>
      DataFrame.ilocCols ((ls.take i).sum) ((ls.take (i + 1)).sum)
        (⟨ti, tc, td⟩ : DataFrame α)) =
      ((List.range ls.length).map (fun i =>
        (((ls.take i).sum), ((ls.take (i + 1)).sum)))).map
        (fun p => DataFrame.ilocCols p.1 p.2 ⟨ti, tc, td⟩) := by
    rw [List.map_map]
    rfl
  have hbne : (List.range ls.length).map (fun i =>
      (((ls.take i).sum), ((ls.take (i + 1)).sum))) ≠ [] := by
    simp only [ne_eq, List.map_eq_nil_iff, List.range_eq_nil]
    intro hc
    exact hne (List.length_eq_zero.mp hc)
  rw [hpair, concatCols_map_slices_ne_nil ti tc td _ hbne]
  refine DataFrame.mk.injEq .. ▸ ?_
  refine ⟨rfl, ?_, ?_⟩
  · rw [List.map_map]
    exact psum_slices_flatten ls tc hcov
  · have : td.map (fun r => (((List.range ls.length).map (fun i =>
        (((ls.take i).sum), ((ls.take (i + 1)).sum)))).map
          (fun p => pySlice p.1 p.2 r)).flatten) = td.map (fun r => r) := by
      apply List.map_congr_left
      intro r hr
      rw [List.map_map]
      exact psum_slices_flatten ls r (by rw [hrect r hr]; exact hcov)
    rw [this]
    simp

/-! ### Evaluation lemmas for the branches of the splitter -/

theorem split_lenlist_df_rows (d : DataFrame α) (ll : List Nat) (n m : Nat) :
    split_result_of_axis_func_pandas 0 n (PdObj.df d) (some ll) m =
      (Except.ok ((List.range ll.length).map (fun i =>
        PdObj.df (DataFrame.ilocRows ((ll.take i).sum) ((ll.take (i + 1)).sum) d))),
       some (0 :: ll)) := by
  unfold split_result_of_axis_func_pandas
  simp only [cumsum_zero_cons_length, Nat.add_sub_cancel, if_pos rfl]
  congr 1
  apply congrArg
  apply List.map_congr_left
  intro i hi
  have hi' : i < ll.length := List.mem_range.mp hi
  rw [cumsum_zero_cons_getD ll i (Nat.le_of_lt hi'), cumsum_zero_cons_getD ll (i + 1) hi']

theorem split_lenlist_df_cols (d : DataFrame α) (ll : List Nat) (axis n m : Nat)
    (haxis : axis ≠ 0) :
    split_result_of_axis_func_pandas axis n (PdObj.df d) (some ll) m =
      (Except.ok ((List.range ll.length).map (fun i =>
        PdObj.df (DataFrame.ilocCols ((ll.take i).sum) ((ll.take (i + 1)).sum) d))),
       some (0 :: ll)) := by
  unfold split_result_of_axis_func_pandas
  simp only [cumsum_zero_cons_length, Nat.add_sub_cancel, if_neg haxis]
  congr 1
  apply congrArg
  apply List.map_congr_left
  intro i hi
  have hi' : i < ll.length := List.mem_range.mp hi
  rw [cumsum_zero_cons_getD ll i (Nat.le_of_lt hi'), cumsum_zero_cons_getD ll (i + 1) hi']

theorem split_lenlist_series (s : Series α) (ll : List Nat) (axis n m : Nat) :
    split_result_of_axis_func_pandas axis n (PdObj.series s) (some ll) m =
      (Except.ok ((List.range ll.length).map (fun i =>
        PdObj.series (Series.ilocRows ((ll.take i).sum) ((ll.take (i + 1)).sum) s))),
       some (0 :: ll)) := by
  unfold split_result_of_axis_func_pandas
  simp only [cumsum_zero_cons_length, Nat.add_sub_cancel]
  congr 1
  apply congrArg
  apply List.map_congr_left
  intro i hi
  have hi' : i < ll.length := List.mem_range.mp hi
  rw [cumsum_zero_cons_getD ll i (Nat.le_of_lt hi'), cumsum_zero_cons_getD ll (i + 1) hi']

theorem split_uniform_df_rows (d : DataFrame α) (N m : Nat) (hN : N ≠ 1) :
    split_result_of_axis_func_pandas 0 N (PdObj.df d) none m =
      (Except.ok ((List.range N).map (fun i =>
        PdObj.df (DataFrame.ilocRows
          (max 1 (max (get_default_chunksize d.index.length N) m) * i)
          (max 1 (max (get_default_chunksize d.index.length N) m) * (i + 1)) d))),
       none) := by
  unfold split_result_of_axis_func_pandas
  rw [if_neg hN]
  rfl

theorem split_uniform_df_cols (d : DataFrame α) (N m : Nat) (hN : N ≠ 1) :
    split_result_of_axis_func_pandas 1 N (PdObj.df d) none m =
      (Except.ok ((List.range N).map (fun i =>
        PdObj.df (DataFrame.ilocCols
          (max 1 (max (get_default_chunksize d.cols.length N) m) * i)
          (max 1 (max (get_default_chunksize d.cols.length N) m) * (i + 1)) d))),
       none) := by
  unfold split_result_of_axis_func_pandas
  rw [if_neg hN]
  rfl

theorem split_uniform_series_rows (s : Series α) (N m : Nat) (hN : N ≠ 1) :
    split_result_of_axis_func_pandas 0 N (PdObj.series s) none m =
      (Except.ok ((List.range N).map (fun i =>
        PdObj.series (Series.ilocRows
          (max 1 (max (get_default_chunksize s.index.length N) m) * i)
          (max 1 (max (get_default_chunksize s.index.length N) m) * (i + 1)) s))),
       none) := by
  unfold split_result_of_axis_func_pandas
  rw [if_neg hN]
  rfl

theorem split_uniform_series_err (s : Series α) (N m : Nat) (hN : N ≠ 1) :
    split_result_of_axis_func_pandas 1 N (PdObj.series s) none m =
      (Except.error "AttributeError", none) := by
  unfold split_result_of_axis_func_pandas
  rw [if_neg hN]
  rfl

theorem split_single (axis m : Nat) (T : PdObj α) :
    split_result_of_axis_func_pandas axis 1 T none m = (Except.ok [T], none) := rfl

/-- C6: for every `L ≥ 0` and `N ≥ 1`, `get_default_chunksize L N` equals
`ceil(L / N)` (written `(L + N - 1) / N` in natural-number arithmetic), and
it is the smallest integer `C` such that `N` chunks of size `C` cover `L`. -/
theorem C6_gdc_is_ceil (L N : Nat) (hN : 1 ≤ N) :
    get_default_chunksize L N = (L + N - 1) / N ∧
    L ≤ get_default_chunksize L N * N ∧
    ∀ C, L ≤ C * N → get_default_chunksize L N ≤ C :=
  ⟨get_default_chunksize_eq L N hN, le_gdc_mul L N hN,
   fun C hC => gdc_le_of_cover L N C hN hC⟩

/-- Witness for C6 at `L = 10`, `N = 3`. -/
theorem C6_gdc_is_ceil_witness :
    (1 ≤ 3 ∧ get_default_chunksize 10 3 = (10 + 3 - 1) / 3) :=
  ⟨by decide, (C6_gdc_is_ceil 10 3 (by decide)).1⟩

/-! ### Claim C5 -/

/-- C5 counterexample: at `L = 1`, `N = 2` the claimed pair of inequalities
fails: `C = get_default_chunksize 1 2 = 1` and `C × (N − 1) = 1 < 1` is
false. -/
theorem C5_counterexample :
    ¬ (1 ≤ get_default_chunksize 1 2 * 2 ∧ get_default_chunksize 1 2 * (2 - 1) < 1) := by
  decide

/-- C5 as amended: for every `L ≥ 0` and `N ≥ 1`, with
`C = get_default_chunksize L N`, the covering law `C × N ≥ L` holds, and `C`
is the least chunk size that covers: every candidate size whose product with `N` reaches `L` is at least `C` (the claimed `C × (N − 1) < L` fails, e.g. at `L = 1`, `N = 2`). -/
theorem C5_amended_cover_law (L N : Nat) (hN : 1 ≤ N) :
    L ≤ get_default_chunksize L N * N ∧
    ∀ C, L ≤ C * N → get_default_chunksize L N ≤ C :=
  ⟨le_gdc_mul L N hN, fun C hC => gdc_le_of_cover L N C hN hC⟩

/-- Witness for the amended C5 at `L = 10`, `N = 3`. -/
theorem C5_amended_cover_law_witness :
    (1 ≤ 3 ∧ 10 ≤ get_default_chunksize 10 3 * 3) :=
  ⟨by decide, (C5_amended_cover_law 10 3 (by decide)).1⟩

/-! ### Claim C8 -/

/-- C8: with `num_splits = 1` and no length list, the splitter returns a
one-element list containing the input object unchanged (and no length-list
state exists), for every axis and every input. -/
theorem C8_single_split_identity {α : Type} (axis m : Nat) (T : PdObj α) :
    split_result_of_axis_func_pandas axis 1 T none m = (Except.ok [T], none) := rfl

/-! ### Claim C1 -/

/-- C1: for every well-formed `DataFrame` `T`, every axis in `{0, 1}` and
every split count `N ≥ 1` (uniform path), and likewise for every nonempty
supplied length list whose entries sum to the axis length (length-list
path), concatenating the partition sequence returned by
`split_result_of_axis_func_pandas` in order along the split axis reproduces
`T` exactly — values and order preserved, no overlap, no gaps. -/
theorem C1_split_roundtrip {α : Type} (T : DataFrame α) (hwf : T.wf) (m : Nat) :
    (∀ N, 1 ≤ N → ∃ parts : List (DataFrame α),
      split_result_of_axis_func_pandas 0 N (PdObj.df T) none m =
        (Except.ok (parts.map PdObj.df), none) ∧ concatRows parts = T) ∧
    (∀ N, 1 ≤ N → ∃ parts : List (DataFrame α),
      split_result_of_axis_func_pandas 1 N (PdObj.df T) none m =
        (Except.ok (parts.map PdObj.df), none) ∧ concatCols parts = T) ∧
    (∀ n (ll : List Nat), ll ≠ [] → ll.sum = T.index.length →
      ∃ parts : List (DataFrame α),
        split_result_of_axis_func_pandas 0 n (PdObj.df T) (some ll) m =
          (Except.ok (parts.map PdObj.df), some (0 :: ll)) ∧ concatRows parts = T) ∧
    (∀ n (ll : List Nat), ll ≠ [] → ll.sum = T.cols.length →
      ∃ parts : List (DataFrame α),
        split_result_of_axis_func_pandas 1 n (PdObj.df T) (some ll) m =
          (Except.ok (parts.map PdObj.df), some (0 :: ll)) ∧ concatCols parts = T) := by
  obtain ⟨hlen, hrect⟩ := hwf
  refine ⟨?_, ?_, ?_, ?_⟩
  · intro N hN
    by_cases h1 : N = 1
    · subst h1
      exact ⟨[T], by rw [split_single]; rfl, by simp [concatRows]⟩
    · refine ⟨(List.range N).map (fun i => DataFrame.ilocRows
        (max 1 (max (get_default_chunksize T.index.length N) m) * i)
        (max 1 (max (get_default_chunksize T.index.length N) m) * (i + 1)) T), ?_, ?_⟩
      · rw [split_uniform_df_rows T N m h1, List.map_map]
        rfl
      · set c := max 1 (max (get_default_chunksize T.index.length N) m) with hc
        have hcge : get_default_chunksize T.index.length N ≤ c :=
          le_trans (le_max_left _ _) (le_max_right _ _)
        have hcov : T.index.length ≤ (List.replicate N c).sum := by
          rw [List.sum_replicate, smul_eq_mul]
          calc T.index.length
              ≤ get_default_chunksize T.index.length N * N := le_gdc_mul _ _ hN
            _ ≤ c * N := Nat.mul_le_mul hcge (Nat.le_refl N)
            _ = N * c := Nat.mul_comm c N
        have hrep : (List.replicate N c) ≠ [] := by
          intro hnil
          have hlr := congrArg List.length hnil
          simp at hlr
          omega
        have hconv : (List.range N).map (fun i =>
            DataFrame.ilocRows (c * i) (c * (i + 1)) T) =
            (List.range (List.replicate N c).length).map (fun i =>
              DataFrame.ilocRows (((List.replicate N c).take i).sum)
                (((List.replicate N c).take (i + 1)).sum) T) := by
          rw [List.length_replicate]
          apply List.map_congr_left
          intro i hi
          have hi' : i < N := List.mem_range.mp hi
          rw [replicate_take_sum c N i (Nat.le_of_lt hi'),
            replicate_take_sum c N (i + 1) hi']
        rw [hconv]
        exact concatRows_slices T hlen (List.replicate N c) hrep hcov
  · intro N hN
    by_cases h1 : N = 1
    · subst h1
      exact ⟨[T], by rw [split_single]; rfl, by simp [concatCols]⟩
    · refine ⟨(List.range N).map (fun i => DataFrame.ilocCols
        (max 1 (max (get_default_chunksize T.cols.length N) m) * i)
        (max 1 (max (get_default_chunksize T.cols.length N) m) * (i + 1)) T), ?_, ?_⟩
      · rw [split_uniform_df_cols T N m h1, List.map_map]
        rfl
      · set c := max 1 (max (get_default_chunksize T.cols.length N) m) with hc
        have hcge : get_default_chunksize T.cols.length N ≤ c :=
          le_trans (le_max_left _ _) (le_max_right _ _)
        have hcov : T.cols.length ≤ (List.replicate N c).sum := by
          rw [List.sum_replicate, smul_eq_mul]
          calc T.cols.length
              ≤ get_default_chunksize T.cols.length N * N := le_gdc_mul _ _ hN
            _ ≤ c * N := Nat.mul_le_mul hcge (Nat.le_refl N)
            _ = N * c := Nat.mul_comm c N
        have hrep : (List.replicate N c) ≠ [] := by
          intro hnil
          have hlr := congrArg List.length hnil
          simp at hlr
          omega
        have hconv : (List.range N).map (fun i =>
            DataFrame.ilocCols (c * i) (c * (i + 1)) T) =
            (List.range (List.replicate N c).length).map (fun i =>
              DataFrame.ilocCols (((List.replicate N c).take i).sum)
                (((List.replicate N c).take (i + 1)).sum) T) := by
          rw [List.length_replicate]
          apply List.map_congr_left
          intro i hi
          have hi' : i < N := List.mem_range.mp hi
          rw [replicate_take_sum c N i (Nat.le_of_lt hi'),
            replicate_take_sum c N (i + 1) hi']
        rw [hconv]
        exact concatCols_slices T hrect (List.replicate N c) hrep hcov
  · intro n ll hne hsum
    refine ⟨(List.range ll.length).map (fun i =>
      DataFrame.ilocRows ((ll.take i).sum) ((ll.take (i + 1)).sum) T), ?_, ?_⟩
    · rw [split_lenlist_df_rows T ll n m, List.map_map]
      rfl
    · exact concatRows_slices T hlen ll hne (by omega)
  · intro n ll hne hsum
    refine ⟨(List.range ll.length).map (fun i =>
      DataFrame.ilocCols ((ll.take i).sum) ((ll.take (i + 1)).sum) T), ?_, ?_⟩
    · rw [split_lenlist_df_cols T ll 1 n m (by omega), List.map_map]
      rfl
    · exact concatCols_slices T hrect ll hne (by omega)

/-- Witness for C1: a concrete well-formed 3×2 table, split uniformly in two
along rows and restored from the length list `[2, 1]`. -/
theorem C1_split_roundtrip_witness :
    (DataFrame.mk [0, 1, 2] [0, 1] [[1, 2], [3, 4], [5, 6]] : DataFrame Nat).wf ∧
    (1 : Nat) ≤ 2 ∧ ([2, 1] : List Nat) ≠ [] ∧ ([2, 1] : List Nat).sum = 3 ∧
    (∃ parts : List (DataFrame Nat),
      split_result_of_axis_func_pandas 0 2
        (PdObj.df (DataFrame.mk [0, 1, 2] [0, 1] [[1, 2], [3, 4], [5, 6]])) none 1 =
        (Except.ok (parts.map PdObj.df), none) ∧
      concatRows parts = DataFrame.mk [0, 1, 2] [0, 1] [[1, 2], [3, 4], [5, 6]]) ∧
    (∃ parts : List (DataFrame Nat),
      split_result_of_axis_func_pandas 0 7
        (PdObj.df (DataFrame.mk [0, 1, 2] [0, 1] [[1, 2], [3, 4], [5, 6]]))
        (some [2, 1]) 1 =
        (Except.ok (parts.map PdObj.df), some [0, 2, 1]) ∧
      concatRows parts = DataFrame.mk [0, 1, 2] [0, 1] [[1, 2], [3, 4], [5, 6]]) :=
  ⟨by decide, by decide, by decide, by decide,
   (C1_split_roundtrip _ (by decide) 1).1 2 (by decide),
   (C1_split_roundtrip _ (by decide) 1).2.2.1 7 [2, 1] (by decide) (by decide)⟩

/-! ### Claim C2 -/

/-- C2 counterexample: the call with `length_list = [1, 1]` leaves the
list of the caller equal to `[0, 1, 1]`, not `[1, 1]`: the input list is not left
unchanged, so the function is not purely functional over its inputs. -/
theorem C2_counterexample :
    (split_result_of_axis_func_pandas 0 3
      (PdObj.df (⟨[0, 1], [0], [[1], [2]]⟩ : DataFrame Nat)) (some [1, 1]) 1).2 ≠
      some [1, 1] := by
  decide

/-- C2 as amended: the table argument is only read and sliced, but the
length list, when supplied, is mutated in place: after every call the
list of the caller holds `0 :: original` (one element longer, with a leading 0);
only calls without a length list leave all inputs unchanged. -/
theorem C2_amended_length_list_mutated {α : Type} (axis n m : Nat) (T : PdObj α)
    (llo : Option (List Nat)) :
    (split_result_of_axis_func_pandas axis n T llo m).2 =
      llo.map (fun l => 0 :: l) := by
  match llo with
  | some ll =>
      cases T with
      | df d =>
          by_cases haxis : axis = 0
          · subst haxis
            rw [split_lenlist_df_rows]
            rfl
          · rw [split_lenlist_df_cols d ll axis n m haxis]
            rfl
      | series s =>
          rw [split_lenlist_series]
          rfl
  | none =>
      by_cases h1 : n = 1
      · subst h1
        rw [split_single]
        rfl
      · unfold split_result_of_axis_func_pandas
        rw [if_neg h1]
        cases hcc : compute_chunksize T n none (some axis) m with
        | error e => rfl
        | ok v =>
            cases v with
            | inl c => rfl
            | inr p => rfl

/-! ### Claim C3 -/

/-- C3 counterexample: on a `Series`, the uniform path with `axis = 1` and
`num_splits = 2` does not return row-sliced partitions — it fails, because
deriving the chunksize evaluates `len(df.columns)` on an object with no
`columns` attribute. -/
theorem C3_counterexample :
    (split_result_of_axis_func_pandas 1 2
      (PdObj.series (⟨[0, 1, 2], [10, 20, 30]⟩ : Series Nat)) none 1).1 =
      Except.error "AttributeError" ∧
    ¬ ∃ parts, (split_result_of_axis_func_pandas 1 2
      (PdObj.series (⟨[0, 1, 2], [10, 20, 30]⟩ : Series Nat)) none 1).1 =
      Except.ok parts := by
  refine ⟨by decide, ?_⟩
  rintro ⟨parts, h⟩
  rw [show (split_result_of_axis_func_pandas 1 2
      (PdObj.series (⟨[0, 1, 2], [10, 20, 30]⟩ : Series Nat)) none 1).1 =
      Except.error "AttributeError" from by decide] at h
  exact Except.noConfusion h

/-- C3 as amended: for every `Series` input, the length-list path slices
along the row axis regardless of the axis argument and returns the
row-sliced partitions without error, and so do the uniform path with
`axis = 0` and the `num_splits = 1` shortcut on either axis; but the
uniform path with `axis = 1` and `num_splits ≥ 2` raises (computing the
chunksize accesses the column axis, which a `Series` lacks) instead of
returning partitions. -/
theorem C3_amended_series_row_axis {α : Type} (s : Series α) :
    (∀ axis n m (ll : List Nat),
      split_result_of_axis_func_pandas axis n (PdObj.series s) (some ll) m =
        (Except.ok ((List.range ll.length).map (fun i =>
          PdObj.series (Series.ilocRows ((ll.take i).sum) ((ll.take (i + 1)).sum) s))),
         some (0 :: ll))) ∧
    (∀ axis m, split_result_of_axis_func_pandas axis 1 (PdObj.series s) none m =
      (Except.ok [PdObj.series s], none)) ∧
    (∀ N m, 2 ≤ N →
      split_result_of_axis_func_pandas 0 N (PdObj.series s) none m =
        (Except.ok ((List.range N).map (fun i =>
          PdObj.series (Series.ilocRows
            (max 1 (max (get_default_chunksize s.index.length N) m) * i)
            (max 1 (max (get_default_chunksize s.index.length N) m) * (i + 1)) s))),
         none)) ∧
    (∀ N m, 2 ≤ N →
      split_result_of_axis_func_pandas 1 N (PdObj.series s) none m =
        (Except.error "AttributeError", none)) :=
  ⟨fun axis n m ll => split_lenlist_series s ll axis n m,
   fun axis m => split_single axis m (PdObj.series s),
   fun N m hN => split_uniform_series_rows s N m (by omega),
   fun N m hN => split_uniform_series_err s N m (by omega)⟩

/-- Witness for the amended C3 at a concrete three-element series. -/
theorem C3_amended_series_row_axis_witness :
    (2 : Nat) ≤ 2 ∧
    split_result_of_axis_func_pandas 1 2
      (PdObj.series (⟨[0, 1, 2], [10, 20, 30]⟩ : Series Nat)) none 4 =
      (Except.error "AttributeError", none) :=
  ⟨by decide,
   (C3_amended_series_row_axis (⟨[0, 1, 2], [10, 20, 30]⟩ : Series Nat)).2.2.2 2 4
     (by decide)⟩

/-! ### Claim C7 -/

/-- C7: with a supplied length list `ll` the splitter returns exactly
`ll.length` partitions, partition `i` being the half-open slice
`[prefix i, prefix (i+1))` of the table along the target axis, where
`prefix` is the running sum of `[0] ++ ll`; the `num_splits` argument (and
the configuration value) has no effect on the result; in particular a 5-row
table with `length_list = [2, 2, 1]` yields the row ranges `[0, 2)`,
`[2, 4)`, `[4, 5)`. -/
theorem C7_lenlist_prefix_sums {α : Type} (d : DataFrame α) (ll : List Nat)
    (n m : Nat) :
    ((split_result_of_axis_func_pandas 0 n (PdObj.df d) (some ll) m).1 =
      Except.ok ((List.range ll.length).map (fun i =>
        PdObj.df (DataFrame.ilocRows ((ll.take i).sum) ((ll.take (i + 1)).sum) d)))) ∧
    ((split_result_of_axis_func_pandas 1 n (PdObj.df d) (some ll) m).1 =
      Except.ok ((List.range ll.length).map (fun i =>
        PdObj.df (DataFrame.ilocCols ((ll.take i).sum) ((ll.take (i + 1)).sum) d)))) ∧
    (∀ parts, (split_result_of_axis_func_pandas 0 n (PdObj.df d) (some ll) m).1 =
      Except.ok parts → parts.length = ll.length) ∧
    (∀ axis n2 m2,
      split_result_of_axis_func_pandas axis n (PdObj.df d) (some ll) m =
        split_result_of_axis_func_pandas axis n2 (PdObj.df d) (some ll) m2) ∧
    ((split_result_of_axis_func_pandas 0 n
        (PdObj.df (⟨[0, 1, 2, 3, 4], [0], [[10], [11], [12], [13], [14]]⟩ : DataFrame Nat))
        (some [2, 2, 1]) m).1 =
      Except.ok [PdObj.df ⟨[0, 1], [0], [[10], [11]]⟩,
        PdObj.df ⟨[2, 3], [0], [[12], [13]]⟩, PdObj.df ⟨[4], [0], [[14]]⟩]) := by
  refine ⟨?_, ?_, ?_, ?_, ?_⟩
  · rw [split_lenlist_df_rows]
  · rw [split_lenlist_df_cols d ll 1 n m (by omega)]
  · intro parts hp
    rw [split_lenlist_df_rows] at hp
    have := Except.ok.inj hp
    rw [← this, List.length_map, List.length_range]
  · intro axis n2 m2
    by_cases haxis : axis = 0
    · subst haxis
      rw [split_lenlist_df_rows, split_lenlist_df_rows]
    · rw [split_lenlist_df_cols d ll axis n m haxis,
        split_lenlist_df_cols d ll axis n2 m2 haxis]
  · rw [split_lenlist_df_rows]
    rfl

/-- Witness for C7 at concrete arguments, showing the scenario conjunct. -/
theorem C7_lenlist_prefix_sums_witness :
    (split_result_of_axis_func_pandas 0 3
      (PdObj.df (⟨[0, 1, 2, 3, 4], [0], [[10], [11], [12], [13], [14]]⟩ : DataFrame Nat))
      (some [2, 2, 1]) 1).1 =
      Except.ok [PdObj.df ⟨[0, 1], [0], [[10], [11]]⟩,
        PdObj.df ⟨[2, 3], [0], [[12], [13]]⟩, PdObj.df ⟨[4], [0], [[14]]⟩] :=
  (C7_lenlist_prefix_sums
    (⟨[0, 1, 2, 3, 4], [0], [[10], [11], [12], [13], [14]]⟩ : DataFrame Nat)
    [2, 2, 1] 3 1).2.2.2.2

/-! ### Claim C4 -/

/-- C4: for every table, every `N ≥ 1` and every requested axis,
`compute_chunksize` returns per axis
`max(1, ceil(axis_length / N), effective minimum)`, where the effective
minimum is the caller override if given and the `MinPartitionSize` value
otherwise; every returned chunksize is `≥ 1` and `≥` the effective
minimum. -/
theorem C4_compute_chunksize_formula {α : Type} (d : DataFrame α) (N m : Nat)
    (ovr : Option Nat) (hN : 1 ≤ N) :
    (compute_chunksize (PdObj.df d) N ovr (some 0) m =
      Except.ok (Sum.inl (max 1 (max ((d.index.length + N - 1) / N) (ovr.getD m))))) ∧
    (compute_chunksize (PdObj.df d) N ovr (some 1) m =
      Except.ok (Sum.inl (max 1 (max ((d.cols.length + N - 1) / N) (ovr.getD m))))) ∧
    (compute_chunksize (PdObj.df d) N ovr none m =
      Except.ok (Sum.inr
        (max 1 (max ((d.index.length + N - 1) / N) (ovr.getD m)),
         max 1 (max ((d.cols.length + N - 1) / N) (ovr.getD m))))) ∧
    (1 ≤ max 1 (max ((d.index.length + N - 1) / N) (ovr.getD m)) ∧
     ovr.getD m ≤ max 1 (max ((d.index.length + N - 1) / N) (ovr.getD m))) ∧
    (1 ≤ max 1 (max ((d.cols.length + N - 1) / N) (ovr.getD m)) ∧
     ovr.getD m ≤ max 1 (max ((d.cols.length + N - 1) / N) (ovr.getD m))) := by
  have h0 := get_default_chunksize_eq d.index.length N hN
  have h1 := get_default_chunksize_eq d.cols.length N hN
  refine ⟨?_, ?_, ?_, ?_, ?_⟩
  · cases ovr <;> simp [compute_chunksize, pdIndexLen, pdColsLen, Option.getD, h0]
  · cases ovr <;> simp [compute_chunksize, pdIndexLen, pdColsLen, Option.getD, h1]
  · cases ovr <;> simp [compute_chunksize, pdIndexLen, pdColsLen, Option.getD, h0, h1]
  · exact ⟨le_max_left _ _, le_trans (le_max_right _ _) (le_max_right _ _)⟩
  · exact ⟨le_max_left _ _, le_trans (le_max_right _ _) (le_max_right _ _)⟩

/-- Witness for C4: a 3-row, 1-column table split in 2 with no override and
`MinPartitionSize = 1`. -/
theorem C4_compute_chunksize_formula_witness :
    (1 : Nat) ≤ 2 ∧
    compute_chunksize (PdObj.df (⟨[0, 1, 2], [0], [[1], [2], [3]]⟩ : DataFrame Nat))
      2 none (some 0) 1 = Except.ok (Sum.inl 2) :=
  ⟨by decide,
   (C4_compute_chunksize_formula (⟨[0, 1, 2], [0], [[1], [2], [3]]⟩ : DataFrame Nat)
     2 1 none (by decide)).1⟩

/-! ### Claim C9 -/

/-- C9: the dimension probes fail with an assertion error exactly when the
input is not a `DataFrame` (e.g. a `Series`); on a `DataFrame` they return
the row count and the column count, in particular exactly `0` when the
corresponding dimension is empty. -/
theorem C9_dimension_probes {α : Type} (T : PdObj α) :
    ((∃ e, length_fn_pandas T = Except.error e) ↔ ∀ d : DataFrame α, T ≠ PdObj.df d) ∧
    ((∃ e, width_fn_pandas T = Except.error e) ↔ ∀ d : DataFrame α, T ≠ PdObj.df d) ∧
    (∀ d : DataFrame α, T = PdObj.df d →
      length_fn_pandas T = Except.ok d.index.length ∧
      width_fn_pandas T = Except.ok d.cols.length ∧
      (d.index.length = 0 → length_fn_pandas T = Except.ok 0) ∧
      (d.cols.length = 0 → width_fn_pandas T = Except.ok 0)) := by
  have hif : ∀ L : Nat, (if 0 < L then L else 0) = L := by
    intro L
    by_cases h : 0 < L
    · rw [if_pos h]
    · rw [if_neg h]
      omega
  refine ⟨?_, ?_, ?_⟩
  · cases T with
    | df d =>
        constructor
        · rintro ⟨e, he⟩
          simp [length_fn_pandas] at he
        · intro hall
          exact absurd rfl (hall d)
    | series s =>
        constructor
        · intro _ d hcon
          exact PdObj.noConfusion hcon
        · intro _
          exact ⟨"AssertionError", rfl⟩
  · cases T with
    | df d =>
        constructor
        · rintro ⟨e, he⟩
          simp [width_fn_pandas] at he
        · intro hall
          exact absurd rfl (hall d)
    | series s =>
        constructor
        · intro _ d hcon
          exact PdObj.noConfusion hcon
        · intro _
          exact ⟨"AssertionError", rfl⟩
  · intro d hT
    subst hT
    refine ⟨?_, ?_, ?_, ?_⟩
    · simp [length_fn_pandas, hif]
    · simp [width_fn_pandas, hif]
    · intro hz
      simp [length_fn_pandas, hif, hz]
    · intro hz
      simp [width_fn_pandas, hif, hz]

/-- Witness for C9: probes on a concrete empty `DataFrame` and on a
concrete `Series`. -/
theorem C9_dimension_probes_witness :
    (PdObj.df (⟨[], [], []⟩ : DataFrame Nat) = PdObj.df (⟨[], [], []⟩ : DataFrame Nat)) ∧
    length_fn_pandas (PdObj.df (⟨[], [], []⟩ : DataFrame Nat)) = Except.ok 0 ∧
    width_fn_pandas (PdObj.df (⟨[], [], []⟩ : DataFrame Nat)) = Except.ok 0 ∧
    (∃ e, length_fn_pandas (PdObj.series (⟨[0], [5]⟩ : Series Nat)) = Except.error e) :=
  ⟨rfl,
   ((C9_dimension_probes (PdObj.df (⟨[], [], []⟩ : DataFrame Nat))).2.2
     ⟨[], [], []⟩ rfl).2.2.1 rfl,
   ((C9_dimension_probes (PdObj.df (⟨[], [], []⟩ : DataFrame Nat))).2.2
     ⟨[], [], []⟩ rfl).2.2.2 rfl,
   (C9_dimension_probes (PdObj.series (⟨[0], [5]⟩ : Series Nat))).1.mpr
     (fun _ hc => PdObj.noConfusion hc)⟩

/-! ### Claim C10 -/

/-- C10: whenever the splitter is called with a length list, it mutates the
caller-supplied list in place by inserting `0` at position 0, so after the
call the list is one element longer with a leading `0`; consequently,
passing the same list object to a second call produces a different
partitioning: an extra leading partition that is empty along the sliced
axis, in front of the partitions of the first call. -/
theorem C10_length_list_insert {α : Type} (axis n n2 m m2 : Nat) (T : PdObj α)
    (ll : List Nat) :
    (split_result_of_axis_func_pandas axis n T (some ll) m).2 = some (0 :: ll) ∧
    (0 :: ll).length = ll.length + 1 ∧
    ∃ parts, (split_result_of_axis_func_pandas axis n T (some ll) m).1 = Except.ok parts ∧
      (split_result_of_axis_func_pandas axis n2 T (some (0 :: ll)) m2).1 =
        Except.ok (leadingEmptySlice axis T :: parts) ∧
      slicedAxisLen axis (leadingEmptySlice axis T) = 0 ∧
      (Except.ok (leadingEmptySlice axis T :: parts) : Except String (List (PdObj α))) ≠
        Except.ok parts := by
  have hcne : ∀ (e : PdObj α) (ps : List (PdObj α)),
      (Except.ok (e :: ps) : Except String (List (PdObj α))) ≠ Except.ok ps := by
    intro e ps hcon
    have h2 := Except.ok.inj hcon
    have h3 := congrArg List.length h2
    simp at h3
  cases T with
  | series s =>
      refine ⟨by rw [split_lenlist_series], rfl,
        (List.range ll.length).map (fun i =>
          PdObj.series (Series.ilocRows ((ll.take i).sum) ((ll.take (i + 1)).sum) s)),
        by rw [split_lenlist_series], ?_, ?_, hcne _ _⟩
      · rw [split_lenlist_series]
        show Except.ok ((List.range (0 :: ll).length).map (fun i =>
          PdObj.series (Series.ilocRows (((0 :: ll).take i).sum)
            (((0 :: ll).take (i + 1)).sum) s))) = _
        rw [zero_cons_psums_map (fun a b => PdObj.series (Series.ilocRows a b s)) ll]
        rfl
      · simp [slicedAxisLen, leadingEmptySlice, Series.ilocRows, pySlice]
  | df d =>
      by_cases haxis : axis = 0
      · subst haxis
        refine ⟨by rw [split_lenlist_df_rows], rfl,
          (List.range ll.length).map (fun i =>
            PdObj.df (DataFrame.ilocRows ((ll.take i).sum) ((ll.take (i + 1)).sum) d)),
          by rw [split_lenlist_df_rows], ?_, ?_, hcne _ _⟩
        · rw [split_lenlist_df_rows]
          show Except.ok ((List.range (0 :: ll).length).map (fun i =>
            PdObj.df (DataFrame.ilocRows (((0 :: ll).take i).sum)
              (((0 :: ll).take (i + 1)).sum) d))) = _
          rw [zero_cons_psums_map (fun a b => PdObj.df (DataFrame.ilocRows a b d)) ll]
          rfl
        · simp [slicedAxisLen, leadingEmptySlice, DataFrame.ilocRows, pySlice]
      · refine ⟨by rw [split_lenlist_df_cols d ll axis n m haxis], rfl,
          (List.range ll.length).map (fun i =>
            PdObj.df (DataFrame.ilocCols ((ll.take i).sum) ((ll.take (i + 1)).sum) d)),
          by rw [split_lenlist_df_cols d ll axis n m haxis], ?_, ?_, hcne _ _⟩
        · rw [split_lenlist_df_cols d (0 :: ll) axis n2 m2 haxis]
          show Except.ok ((List.range (0 :: ll).length).map (fun i =>
            PdObj.df (DataFrame.ilocCols (((0 :: ll).take i).sum)
              (((0 :: ll).take (i + 1)).sum) d))) = _
          rw [zero_cons_psums_map (fun a b => PdObj.df (DataFrame.ilocCols a b d)) ll]
          simp [leadingEmptySlice, haxis]
        · simp [slicedAxisLen, leadingEmptySlice, haxis, DataFrame.ilocCols, pySlice]

end Modin
